import Mathlib

/-!
Verification of the read-only query gateway in `src/trino_server.py`.

The development shallowly embeds the Python source into Lean:
strings become `List Char`, the regex-based query gate becomes explicit
character-list scanners, and the stateful tool operations become pure
functions that additionally return the list of side effects (connection
attempts, forwarded statements, closes) they would perform, so that
"no connection is opened" style properties are statable.

Fidelity notes (they apply throughout):
- Python's `str` whitespace handling (`str.split`, `str.strip`, regex `\s`)
  is modelled with the six ASCII whitespace characters; Python also accepts
  some further Unicode whitespace, which no claim exercises.
- Python's `str.upper` and regex `\w` are Unicode-aware; the model uses the
  ASCII ranges (`Char.toUpper`, `Char.isAlphanum`), which agree on all
  ASCII input.
-/

/-- Character lists standing for Python strings. -/
abbrev Chars := List Char

/-- Whitespace as matched by Python's `str.split`, `str.strip` and regex
`\s` on ASCII input: space, tab, newline, carriage return, vertical tab,
form feed. -/
def isWS (c : Char) : Bool :=
  c == ' ' || c == '\t' || c == '\n' || c == '\r' || c == '\x0b' || c == '\x0c'

/-- Word characters as matched by regex `\w` and asserted by `\b`
boundaries, on ASCII input: letters, digits, underscore. -/
def isWordChar (c : Char) : Bool :=
  c.isAlphanum || c == '_'

/-- State machine for `re.sub(r'--.*$', '', query, flags=re.MULTILINE)`:
once `--` is seen, characters up to (but not including) the next newline
are dropped.  The flag is `true` while inside a line comment. -/
def stripLineAux : Bool → Chars → Chars
  | _, [] => []
  | true, c :: rest => if c = '\n' then c :: stripLineAux false rest else stripLineAux true rest
  | false, '-' :: '-' :: rest => stripLineAux true rest
  | false, c :: rest => c :: stripLineAux false rest

/-- Removal of SQL line comments (`--` to end of line), line 162 of the
source. -/
def stripLineComments (q : Chars) : Chars := stripLineAux false q

/-- Does the text contain a `*/` close marker?  Used to decide whether
`re.sub(r'/\*.*?\*/', '', query, flags=re.DOTALL)` finds a match for an
opening `/*`: with no close anywhere after it, the non-greedy pattern
matches nothing and the rest of the text is left untouched. -/
def hasBlockClose : Chars → Bool
  | [] => false
  | '*' :: '/' :: _ => true
  | _ :: rest => hasBlockClose rest

/-- State machine for `re.sub(r'/\*.*?\*/', '', query, flags=re.DOTALL)`:
an opening `/*` with a later `*/` starts a comment which ends at the first
`*/` (the non-greedy `.*?`); an opening `/*` with no later `*/` is kept
verbatim together with everything after it (no further match is possible,
as no `*/` occurs in the remainder). -/
def stripBlockAux : Bool → Chars → Chars
  | _, [] => []
  | true, '*' :: '/' :: rest => stripBlockAux false rest
  | true, _ :: rest => stripBlockAux true rest
  | false, '/' :: '*' :: rest =>
      if hasBlockClose rest then stripBlockAux true rest else '/' :: '*' :: rest
  | false, c :: rest => c :: stripBlockAux false rest

/-- Removal of SQL block comments, line 163 of the source. -/
def stripBlockComments (q : Chars) : Chars := stripBlockAux false q

/-- Python's `str.split()` (no separator argument): split on runs of
whitespace, discarding empty pieces.  The accumulator holds the current
word reversed. -/
def splitAux : Chars → Chars → List Chars
  | [], acc => if acc.isEmpty then [] else [acc.reverse]
  | c :: rest, acc =>
      if isWS c then
        (if acc.isEmpty then splitAux rest [] else acc.reverse :: splitAux rest [])
      else splitAux rest (c :: acc)

/-- Python `query_clean.split()`. -/
def pySplit (l : Chars) : List Chars := splitAux l []

/-- Python `' '.join(words)`. -/
def joinSp : List Chars → Chars
  | [] => []
  | [w] => w
  | w :: rest => w ++ ' ' :: joinSp rest

/-- Python `str.strip()`: drop whitespace from both ends. -/
def pyStrip (l : Chars) : Chars :=
  ((l.dropWhile isWS).reverse.dropWhile isWS).reverse

/-- The comment-stripping and whitespace-normalisation prelude of
`validate_query` (source lines 162-164): remove line comments, remove
block comments, then `' '.join(query_clean.split())`. -/
def cleanQuery (q : Chars) : Chars :=
  joinSp (pySplit (stripBlockComments (stripLineComments q)))

/-- Python `str.upper()` (ASCII). -/
def toUpperStr (l : Chars) : Chars := l.map Char.toUpper

/-! The forbidden-pattern scanners.  Each regex in `forbidden_patterns`
(source lines 169-180) has one of three shapes; the `\s+` and `\w+`
pieces are matched by maximal munch, which agrees with the backtracking
regex semantics here because each `\s+` is followed by a word character
and each `\w+` is followed by a whitespace character, so giving back
characters can never turn a failed continuation into a successful one. -/

/-- Match a literal character sequence, returning the remainder. -/
def eatLit : Chars → Chars → Option Chars
  | [], l => some l
  | _ :: _, [] => none
  | p :: ps, c :: cs => if c = p then eatLit ps cs else none

/-- Match regex `\s+` (one or more whitespace characters), maximal munch. -/
def eatWs1 : Chars → Option Chars
  | [] => none
  | c :: cs => if isWS c then some (cs.dropWhile isWS) else none

/-- Match regex `\w+` (one or more word characters), maximal munch. -/
def eatWord1 : Chars → Option Chars
  | [] => none
  | c :: cs => if isWordChar c then some (cs.dropWhile isWordChar) else none

/-- A `\b` word boundary after a word character: the remainder must be
empty or start with a non-word character. -/
def endBdry : Chars → Bool
  | [] => true
  | c :: _ => !isWordChar c

/-- Matcher for regexes of shape `\bK1\s+K2\b` at the current position
(the leading `\b` is handled by `searchPat`). -/
def matchKwKw (k1 k2 : Chars) (l : Chars) : Bool :=
  ((((eatLit k1 l).bind eatWs1).bind (eatLit k2)).elim false endBdry)

/-- Matcher for regexes of shape `\bK1\s+\w+\s+K2\b` at the current
position. -/
def matchKwWordKw (k1 k2 : Chars) (l : Chars) : Bool :=
  (((((((eatLit k1 l).bind eatWs1).bind eatWord1).bind eatWs1).bind (eatLit k2))).elim
    false endBdry)

/-- Matcher for regexes of shape `\bK1\s+(A|B|C|D)\b` at the current
position: the alternatives are tried in order, as the regex engine does. -/
def matchKwObjs (k1 : Chars) (objs : List Chars) (l : Chars) : Bool :=
  (((eatLit k1 l).bind eatWs1).elim false (fun r =>
    objs.any (fun obj => (eatLit obj r).elim false endBdry)))

/-- The alternation `(TABLE|VIEW|SCHEMA|DATABASE)` shared by the CREATE,
DROP and ALTER patterns. -/
def ddlObjects : List Chars :=
  [("TABLE").data, ("VIEW").data, ("SCHEMA").data, ("DATABASE").data]

/-- The `forbidden_patterns` list of source lines 169-180, pattern for
pattern:
`\bINSERT\s+INTO\b`, `\bUPDATE\s+\w+\s+SET\b`, `\bDELETE\s+FROM\b`,
`\bCREATE\s+(TABLE|VIEW|SCHEMA|DATABASE)\b`, the same for DROP and ALTER,
`\bMERGE\s+INTO\b`, `\bTRUNCATE\s+TABLE\b`, `\bGRANT\s+\w+\s+ON\b`,
`\bREVOKE\s+\w+\s+ON\b`. -/
def forbidden_patterns : List (Chars → Bool) :=
  [ matchKwKw (("INSERT").data) (("INTO").data),
    matchKwWordKw (("UPDATE").data) (("SET").data),
    matchKwKw (("DELETE").data) (("FROM").data),
    matchKwObjs (("CREATE").data) ddlObjects,
    matchKwObjs (("DROP").data) ddlObjects,
    matchKwObjs (("ALTER").data) ddlObjects,
    matchKwKw (("MERGE").data) (("INTO").data),
    matchKwKw (("TRUNCATE").data) (("TABLE").data),
    matchKwWordKw (("GRANT").data) (("ON").data),
    matchKwWordKw (("REVOKE").data) (("ON").data) ]

/-- Try a position matcher at every position of the text, as `re.search`
does.  `prev` records whether the character before the current position is
a word character; since every forbidden pattern begins with a letter, the
leading `\b` holds exactly when `prev` is false. -/
def searchPat (p : Chars → Bool) : Chars → Bool → Bool
  | [], prev => !prev && p []
  | c :: rest, prev => (!prev && p (c :: rest)) || searchPat p rest (isWordChar c)

/-- The forbidden-pattern scan of source lines 183-186: `re.search` of any
pattern against the uppercased normalised query. -/
def containsForbidden (l : Chars) : Bool :=
  forbidden_patterns.any (fun p => searchPat p l false)

/-- The allow list `allowed_starts` of source line 190. -/
def allowed_starts : List Chars :=
  [("SELECT").data, ("WITH").data, ("SHOW").data, ("DESCRIBE").data,
   ("DESC").data, ("EXPLAIN").data, ("VALUES").data]

/-- Python `re.sub(r'^\s*\(+\s*', '', query_trimmed)` (source line 195):
if the text begins with (optional whitespace and) at least one opening
parenthesis, remove the whitespace, the maximal run of parentheses, and
the whitespace after them; otherwise the anchored pattern does not match
and the text is returned unchanged. -/
def stripLeadParens (t : Chars) : Chars :=
  match t.dropWhile isWS with
  | '(' :: rest => (rest.dropWhile (fun c => c = '(')).dropWhile isWS
  | _ => t

/-- The query gate `validate_query` of source lines 159-204. -/
def validate_query (query : Chars) : Bool :=
  let query_clean := cleanQuery query
  let query_upper := toUpperStr query_clean
  if containsForbidden query_upper then false
  else
    let query_trimmed := pyStrip query_upper
    if query_trimmed.head? = some '(' then
      let inner_query := stripLeadParens query_trimmed
      allowed_starts.any (fun kw => kw.isPrefixOf inner_query)
    else
      allowed_starts.any (fun kw => kw.isPrefixOf query_trimmed)

/-! The executor and formatter.  The engine, the grid renderer
(`tabulate` plus the `pandas` framing) and `format_error_message` are
external to the logic under verification; they are modelled as explicit
parameters, so every theorem about the operations holds for an arbitrary
engine, renderer and error formatter.  Each operation returns, next to its
text result, the list of side effects it performs, in order. -/

/-- A database cursor after `cursor.execute`: the column names extracted
from `cursor.description` (`col[0]` of each entry; an absent description
is the empty list), and the result rows, each a list of cell texts. -/
structure TrinoCursor where
  description : List Chars
  rows : List (List Chars)

/-- The observable behaviour of the remote engine for one call:
`connectErr = some e` means `trino.dbapi.connect` raises an exception with
text `e`; `runs sql` is the outcome of `cursor.execute sql` — a cursor, or
the text of the raised exception. -/
structure TrinoEngine where
  connectErr : Option Chars
  runs : Chars → Except Chars TrinoCursor

/-- The side effects an operation can perform against the engine. -/
inductive Ev where
  | connect : Ev
  | execSql : Chars → Ev
  | closeCursor : Ev
  | closeConn : Ev
deriving DecidableEq

/-- The error marker prefixing failure messages (the source file stores
the bytes `U+201A U+00F9 U+00E5` for it). -/
def xMark : Chars := ("‚ùå").data

/-- The success marker (bytes `U+201A U+00FA U+00D6` in the source). -/
def checkMark : Chars := ("‚úÖ").data

/-- The result formatter `format_results` of source lines 206-244.
`renderGrid` stands for the `pandas.DataFrame` plus `tabulate` grid
rendering of the shown rows, which the claims do not constrain.
`cursor.fetchmany limit` is modelled as taking the first `limit` rows
(none for a non-positive limit).  The internal `try/except` of the source
never fires in this pure model. -/
def format_results (renderGrid : List Chars → List (List Chars) → Chars)
    (cur : TrinoCursor) (limit : Int) : Chars :=
  let columns := cur.description
  if columns.isEmpty then ("No columns returned").data
  else
    let rows := cur.rows.take limit.toNat
    if rows.isEmpty then ("No results returned").data
    else
      let table := renderGrid columns rows
      let result_count := rows.length
      let total_msg := ("\n\nShowing ").data ++ (toString result_count).data ++ (" row(s)").data
      let total_msg :=
        if (result_count : Int) = limit then
          total_msg ++ (" (limited to ").data ++ (toString limit).data ++ (" rows)").data
        else total_msg
      table ++ total_msg

/-- The fixed policy-rejection message of source line 258. -/
def readOnlyMsg : Chars :=
  xMark ++ (" Error: Only read-only queries are allowed (SELECT, SHOW, DESCRIBE, EXPLAIN, WITH)").data

/-- The missing-query message of source line 254. -/
def queryRequiredMsg : Chars := xMark ++ (" Error: Query is required").data

/-- The `execute_query` tool of source lines 248-273.  `fmtErr e ctx`
stands for `format_error_message(e, ctx)`; a failing
`get_trino_connection` raises `Exception(format_error_message(e,
"Connection attempt"))`, which the tool's handler formats again.  The
effect trace records the connection attempt, the forwarded statement and
the `close` calls actually reached: the source closes the cursor and the
connection only on the straight-line path after a successful
`cursor.execute` (there is no `finally`). -/
def execute_query (eng : TrinoEngine)
    (renderGrid : List Chars → List (List Chars) → Chars)
    (fmtErr : Chars → Chars → Chars) (query : Chars) : Chars × List Ev :=
  if (pyStrip query).isEmpty then (queryRequiredMsg, [])
  else if validate_query query = false then (readOnlyMsg, [])
  else
    let ctx := ("Executing query: ").data ++ query.take 100 ++ ("...").data
    match eng.connectErr with
    | some e => (fmtErr (fmtErr e (("Connection attempt").data)) ctx, [Ev.connect])
    | none =>
      match eng.runs query with
      | .error e => (fmtErr e ctx, [Ev.connect, Ev.execSql query])
      | .ok cur =>
        let result := format_results renderGrid cur 100
        (checkMark ++ (" Query executed successfully:\n\n").data ++ result,
         [Ev.connect, Ev.execSql query, Ev.closeCursor, Ev.closeConn])

/-- Python `catalog.strip() or TRINO_CATALOG`: the stripped value if it is
non-empty, the default otherwise. -/
def orDefault (s d : Chars) : Chars :=
  if (pyStrip s).isEmpty then d else pyStrip s

/-- The process-wide configuration resolved from the environment
(source lines 35-41). -/
structure TrinoConfig where
  host : Chars
  port : Int
  user : Chars
  password : Option Chars
  useHttps : Bool
  catalog : Chars
  schema : Chars

/-- The parameters `get_trino_connection` (source lines 120-154) passes to
`trino.dbapi.connect`. -/
structure ConnParams where
  host : Chars
  port : Int
  user : Chars
  auth : Option (Chars × Chars)
  http_scheme : Chars
  catalog : Chars
  schema : Chars

/-- The connection-parameter computation of `get_trino_connection`
(source lines 130-152): the host is replaced by `host.docker.internal`
exactly when the configured host is `localhost`; basic authentication is
used exactly when a non-empty password is configured (Python truthiness
of `TRINO_PASSWORD`); the scheme follows the HTTPS flag. -/
def get_trino_connection_params (cfg : TrinoConfig) : ConnParams :=
  { host := if cfg.host ≠ ("localhost").data then cfg.host else ("host.docker.internal").data
    port := cfg.port
    user := cfg.user
    auth := match cfg.password with
      | some p => if p.isEmpty then none else some (cfg.user, p)
      | none => none
    http_scheme := if cfg.useHttps then ("https").data else ("http").data
    catalog := cfg.catalog
    schema := cfg.schema }

/-- Python `int(s)` on ASCII decimal input: surrounding whitespace, an
optional sign, then one or more digits; `none` models the `ValueError`.
(Python additionally accepts single underscores between digits and
non-ASCII digits; no claim exercises those.) -/
def parseIntPy (s : Chars) : Option Int :=
  let t := pyStrip s
  let signDigits : Int × Chars :=
    match t with
    | '+' :: r => (1, r)
    | '-' :: r => (-1, r)
    | r => (1, r)
  if !signDigits.2.isEmpty && signDigits.2.all Char.isDigit then
    some (signDigits.1 * (signDigits.2.foldl (fun a c => a * 10 + (c.toNat - 48)) 0 : Nat))
  else none

/-- The limit computation of `sample_table` (source lines 442-447):
default 10 on a blank limit string, otherwise `int(limit)`, clamped from
above to 100; `none` models the caught `ValueError`. -/
def sampleLimit (limit : Chars) : Option Int :=
  match (if (pyStrip limit).isEmpty then some 10 else parseIntPy limit) with
  | none => none
  | some n => some (if n > 100 then 100 else n)

/-- The `catalog.schema.table` interpolation of source line 440 (the table
argument itself is interpolated unstripped, as in the source). -/
def fullTableOf (cfg : TrinoConfig) (table schema catalog : Chars) : Chars :=
  orDefault catalog cfg.catalog ++ (".").data ++ orDefault schema cfg.schema ++ (".").data ++ table

/-- The generated statement `SELECT * FROM full_table LIMIT limit_int` of
source line 455. -/
def sampleSqlOf (ft : Chars) (n : Int) : Chars :=
  ("SELECT * FROM ").data ++ ft ++ (" LIMIT ").data ++ (toString n).data

/-- The invalid-limit message of source line 447. -/
def invalidLimitMsg (limit : Chars) : Chars :=
  xMark ++ (" Error: Invalid limit value: ").data ++ limit

/-- The `sample_table` tool of source lines 432-464, with the same
effect-trace conventions as `execute_query`; note the source again closes
cursor and connection only after a successful `cursor.execute`. -/
def sample_table (cfg : TrinoConfig) (eng : TrinoEngine)
    (renderGrid : List Chars → List (List Chars) → Chars)
    (fmtErr : Chars → Chars → Chars)
    (table limit schema catalog : Chars) : Chars × List Ev :=
  if (pyStrip table).isEmpty then (xMark ++ (" Error: Table name is required").data, [])
  else
    let full_table := fullTableOf cfg table schema catalog
    match sampleLimit limit with
    | none => (invalidLimitMsg limit, [])
    | some limit_int =>
      let ctx := ("Sampling table: ").data ++ full_table
      match eng.connectErr with
      | some e => (fmtErr (fmtErr e (("Connection attempt").data)) ctx, [Ev.connect])
      | none =>
        let sql := sampleSqlOf full_table limit_int
        match eng.runs sql with
        | .error e => (fmtErr e ctx, [Ev.connect, Ev.execSql sql])
        | .ok cur =>
          (checkMark ++ (" Sample from ").data ++ full_table ++ (":\n\n").data
             ++ format_results renderGrid cur limit_int,
           [Ev.connect, Ev.execSql sql, Ev.closeCursor, Ev.closeConn])

/-! Concrete instances used by the witnesses below. -/

/-- A renderer that the witnesses instantiate `renderGrid` with. -/
def rgW (_ : List Chars) (_ : List (List Chars)) : Chars := ("T").data

/-- An error formatter that the witnesses instantiate `fmtErr` with. -/
def feW (e : Chars) (_ : Chars) : Chars := e

/-- An engine whose statement execution always fails. -/
def engFail : TrinoEngine :=
  { connectErr := none, runs := fun _ => Except.error (("engine failure").data) }

/-- A one-column, one-row cursor. -/
def curOne : TrinoCursor := { description := [("a").data], rows := [[("1").data]] }

/-- An engine whose statement execution always succeeds with `curOne`. -/
def engOk : TrinoEngine := { connectErr := none, runs := fun _ => Except.ok curOne }

/-- A configuration with the documented defaults. -/
def cfgW : TrinoConfig :=
  { host := ("localhost").data, port := 8088, user := ("trino").data, password := none
    useHttps := false, catalog := ("tpch").data, schema := ("tiny").data }

/-! A specification-side description of the forbidden patterns, used to
state the universal rejection claim.  It is written from the spec's words
(a word-boundary-anchored phrase whose tokens are separated by arbitrary
non-empty whitespace runs), to be compared with the scanners above that
were translated from the source's regexes. -/

/-- A non-empty run of whitespace ("extra whitespace between tokens"). -/
def wsRunB (s : Chars) : Bool := !s.isEmpty && s.all isWS

/-- A non-empty run of word characters (an identifier, matching `\w+`). -/
def wordRunB (s : Chars) : Bool := !s.isEmpty && s.all isWordChar

/-- The first character, if any, is not a word character: the right word
boundary of an occurrence. -/
def headNonWord (s : Chars) : Bool := s.head?.all (fun c => !isWordChar c)

/-- The last character, if any, is not a word character: the left word
boundary of an occurrence. -/
def lastNonWord (s : Chars) : Bool := s.getLast?.all (fun c => !isWordChar c)

/-- The verbs sharing the `(TABLE|VIEW|SCHEMA|DATABASE)` object
alternation. -/
def ddlVerbs : List Chars := [("CREATE").data, ("DROP").data, ("ALTER").data]

/-- The verbs of shape `VERB <privilege> ON`. -/
def grantVerbs : List Chars := [("GRANT").data, ("REVOKE").data]

/-- Spec-side: `mid` is one of the forbidden mutation phrases, tokens
separated by arbitrary non-empty whitespace: INSERT INTO,
UPDATE <ident> SET, DELETE FROM, CREATE/DROP/ALTER followed by
TABLE/VIEW/SCHEMA/DATABASE, MERGE INTO, TRUNCATE TABLE,
GRANT <priv> ON, REVOKE <priv> ON. -/
def SpecForbiddenPhrase (mid : Chars) : Prop :=
  (∃ sep, wsRunB sep = true ∧ mid = ("INSERT").data ++ sep ++ ("INTO").data) ∨
  (∃ w sep1 sep2, wordRunB w = true ∧ wsRunB sep1 = true ∧ wsRunB sep2 = true ∧
    mid = ("UPDATE").data ++ sep1 ++ w ++ sep2 ++ ("SET").data) ∨
  (∃ sep, wsRunB sep = true ∧ mid = ("DELETE").data ++ sep ++ ("FROM").data) ∨
  (∃ kw obj sep, kw ∈ ddlVerbs ∧ obj ∈ ddlObjects ∧ wsRunB sep = true ∧
    mid = kw ++ sep ++ obj) ∨
  (∃ sep, wsRunB sep = true ∧ mid = ("MERGE").data ++ sep ++ ("INTO").data) ∨
  (∃ sep, wsRunB sep = true ∧ mid = ("TRUNCATE").data ++ sep ++ ("TABLE").data) ∨
  (∃ kw w sep1 sep2, kw ∈ grantVerbs ∧ wordRunB w = true ∧ wsRunB sep1 = true ∧
    wsRunB sep2 = true ∧ mid = kw ++ sep1 ++ w ++ sep2 ++ ("ON").data)

/-- Spec-side: the text contains a forbidden phrase at a word-boundary
position (the character before the occurrence, if any, and the character
after it, if any, are not word characters). -/
def SpecForbiddenOccurs (u : Chars) : Prop :=
  ∃ pre mid post, SpecForbiddenPhrase mid ∧ lastNonWord pre = true ∧
    headNonWord post = true ∧ u = pre ++ mid ++ post

/-! Soundness of the scanners with respect to the spec-side occurrence
predicate: wherever a forbidden phrase occurs on a word boundary,
`containsForbidden` finds it. -/

theorem eatLit_append (s r : Chars) : eatLit s (s ++ r) = some r := by
  induction s with
  | nil => rfl
  | cons a as ih => simp [eatLit, ih]

theorem dropWhile_all_append {p : Char → Bool} {l r : Chars}
    (hl : l.all p = true) (hr : r.head?.all (fun c => !p c) = true) :
    (l ++ r).dropWhile p = r := by
  induction l with
  | nil =>
      cases r with
      | nil => rfl
      | cons c cs =>
          simp only [List.head?, Option.all, Bool.not_eq_true'] at hr
          simp [List.dropWhile_cons, hr]
  | cons a as ih =>
      simp only [List.all_cons, Bool.and_eq_true] at hl
      simp [List.dropWhile_cons, hl.1, ih hl.2]

theorem eatWs1_append {sep r : Chars} (h : wsRunB sep = true)
    (hr : r.head?.all (fun c => !isWS c) = true) : eatWs1 (sep ++ r) = some r := by
  cases sep with
  | nil => simp [wsRunB] at h
  | cons c cs =>
      simp only [wsRunB, List.isEmpty_cons, Bool.not_false, Bool.true_and,
        List.all_cons, Bool.and_eq_true] at h
      simp [eatWs1, List.cons_append, h.1, dropWhile_all_append h.2 hr]

theorem eatWord1_append {w r : Chars} (h : wordRunB w = true)
    (hr : r.head?.all (fun c => !isWordChar c) = true) : eatWord1 (w ++ r) = some r := by
  cases w with
  | nil => simp [wordRunB] at h
  | cons c cs =>
      simp only [wordRunB, List.isEmpty_cons, Bool.not_false, Bool.true_and,
        List.all_cons, Bool.and_eq_true] at h
      simp [eatWord1, List.cons_append, h.1, dropWhile_all_append h.2 hr]

theorem ws_not_word {c : Char} (h : isWS c = true) : isWordChar c = false := by
  simp only [isWS, Bool.or_eq_true, beq_iff_eq] at h
  rcases h with (((((rfl | rfl) | rfl) | rfl) | rfl) | rfl) <;> decide

theorem word_not_ws {c : Char} (h : isWordChar c = true) : isWS c = false := by
  cases hws : isWS c with
  | false => rfl
  | true => rw [ws_not_word hws] at h; cases h

theorem wsRun_headNonWord {s : Chars} (h : wsRunB s = true) :
    s.head?.all (fun c => !isWordChar c) = true := by
  simp only [wsRunB, Bool.and_eq_true] at h
  cases s with
  | nil => rfl
  | cons c cs =>
      have := h.2
      simp only [List.all_cons, Bool.and_eq_true] at this
      simp [Option.all, List.head?, ws_not_word this.1]

theorem wordRun_headNonWs {s : Chars} (h : wordRunB s = true) :
    s.head?.all (fun c => !isWS c) = true := by
  simp only [wordRunB, Bool.and_eq_true] at h
  cases s with
  | nil => rfl
  | cons c cs =>
      have := h.2
      simp only [List.all_cons, Bool.and_eq_true] at this
      simp [Option.all, List.head?, word_not_ws this.1]

theorem head_all_append {p : Char → Bool} {l : Chars} (r : Chars)
    (hl : l ≠ []) (h : l.head?.all p = true) : (l ++ r).head?.all p = true := by
  cases l with
  | nil => exact absurd rfl hl
  | cons c cs => simpa [List.cons_append, Option.all, List.head?] using h

theorem wsRun_ne_nil {s : Chars} (h : wsRunB s = true) : s ≠ [] := by
  intro heq; subst heq; simp [wsRunB] at h

theorem wordRun_ne_nil {s : Chars} (h : wordRunB s = true) : s ≠ [] := by
  intro heq; subst heq; simp [wordRunB] at h

theorem endBdry_of_headNonWord {post : Chars} (h : headNonWord post = true) :
    endBdry post = true := by
  cases post with
  | nil => rfl
  | cons c cs => simpa [headNonWord, Option.all, List.head?, endBdry] using h

theorem matchKwKw_at (k1 k2 sep post : Chars)
    (hk2ne : k2 ≠ []) (hk2 : k2.head?.all (fun c => !isWS c) = true)
    (hsep : wsRunB sep = true) (hpost : headNonWord post = true) :
    matchKwKw k1 k2 (k1 ++ (sep ++ (k2 ++ post))) = true := by
  unfold matchKwKw
  rw [eatLit_append, Option.some_bind, eatWs1_append hsep (head_all_append post hk2ne hk2),
    Option.some_bind, eatLit_append]
  exact endBdry_of_headNonWord hpost

theorem matchKwWordKw_at (k1 k2 w sep1 sep2 post : Chars)
    (hk2ne : k2 ≠ []) (hk2 : k2.head?.all (fun c => !isWS c) = true)
    (hw : wordRunB w = true) (hs1 : wsRunB sep1 = true) (hs2 : wsRunB sep2 = true)
    (hpost : headNonWord post = true) :
    matchKwWordKw k1 k2 (k1 ++ (sep1 ++ (w ++ (sep2 ++ (k2 ++ post))))) = true := by
  unfold matchKwWordKw
  rw [eatLit_append, Option.some_bind,
    eatWs1_append hs1 (head_all_append _ (wordRun_ne_nil hw) (wordRun_headNonWs hw)),
    Option.some_bind,
    eatWord1_append hw (head_all_append _ (wsRun_ne_nil hs2) (wsRun_headNonWord hs2)),
    Option.some_bind,
    eatWs1_append hs2 (head_all_append post hk2ne hk2),
    Option.some_bind, eatLit_append]
  exact endBdry_of_headNonWord hpost

theorem matchKwObjs_at (k1 obj sep post : Chars) (objs : List Chars)
    (hobj : obj ∈ objs) (hobjne : obj ≠ [])
    (hobjh : obj.head?.all (fun c => !isWS c) = true)
    (hsep : wsRunB sep = true) (hpost : headNonWord post = true) :
    matchKwObjs k1 objs (k1 ++ (sep ++ (obj ++ post))) = true := by
  unfold matchKwObjs
  rw [eatLit_append, Option.some_bind,
    eatWs1_append hsep (head_all_append post hobjne hobjh)]
  simp only [Option.elim_some]
  exact List.any_eq_true.mpr
    ⟨obj, hobj, by rw [eatLit_append]; exact endBdry_of_headNonWord hpost⟩

theorem searchPat_split (p : Chars → Bool) :
    ∀ (pre rest : Chars) (prev : Bool), p rest = true →
      lastNonWord pre = true → (pre = [] → prev = false) →
      searchPat p (pre ++ rest) prev = true := by
  intro pre
  induction pre with
  | nil =>
      intro rest prev hp _ hprev
      rw [hprev rfl]
      cases rest <;> simp [searchPat, hp]
  | cons c pre' ih =>
      intro rest prev hp hlast _
      rw [List.cons_append]
      show (!prev && p (c :: (pre' ++ rest)) || searchPat p (pre' ++ rest) (isWordChar c)) = true
      cases pre' with
      | nil =>
          have hc : isWordChar c = false := by
            simpa [lastNonWord, Option.all] using hlast
          rw [ih rest (isWordChar c) hp rfl (fun _ => hc)]
          simp
      | cons c2 pre'' =>
          have hlast' : lastNonWord (c2 :: pre'') = true := by
            simpa [lastNonWord, List.getLast?_cons_cons] using hlast
          rw [ih rest (isWordChar c) hp hlast' (by intro h; cases h)]
          simp

theorem containsForbidden_of_mem {p : Chars → Bool} {u : Chars}
    (hmem : p ∈ forbidden_patterns) (hs : searchPat p u false = true) :
    containsForbidden u = true :=
  List.any_eq_true.mpr ⟨p, hmem, hs⟩

theorem containsForbidden_of_spec {u : Chars} (h : SpecForbiddenOccurs u) :
    containsForbidden u = true := by
  obtain ⟨pre, mid, post, hmid, hpre, hpost, rfl⟩ := h
  rcases hmid with ⟨sep, hsep, rfl⟩ | ⟨w, sep1, sep2, hw, hs1, hs2, rfl⟩ |
    ⟨sep, hsep, rfl⟩ | ⟨kw, obj, sep, hkw, hobj, hsep, rfl⟩ | ⟨sep, hsep, rfl⟩ |
    ⟨sep, hsep, rfl⟩ | ⟨kw, w, sep1, sep2, hkw, hw, hs1, hs2, rfl⟩
  · refine containsForbidden_of_mem (List.Mem.head _) ?_
    have heq : pre ++ (("INSERT").data ++ sep ++ ("INTO").data) ++ post
        = pre ++ (("INSERT").data ++ (sep ++ (("INTO").data ++ post))) := by
      simp [List.append_assoc]
    rw [heq]
    exact searchPat_split _ pre _ false
      (matchKwKw_at _ _ _ _ (by decide) (by decide) hsep hpost) hpre (fun _ => rfl)
  · refine containsForbidden_of_mem (List.Mem.tail _ (List.Mem.head _)) ?_
    have heq : pre ++ (("UPDATE").data ++ sep1 ++ w ++ sep2 ++ ("SET").data) ++ post
        = pre ++ (("UPDATE").data ++ (sep1 ++ (w ++ (sep2 ++ (("SET").data ++ post))))) := by
      simp [List.append_assoc]
    rw [heq]
    exact searchPat_split _ pre _ false
      (matchKwWordKw_at _ _ _ _ _ _ (by decide) (by decide) hw hs1 hs2 hpost) hpre
      (fun _ => rfl)
  · refine containsForbidden_of_mem
      (List.Mem.tail _ (List.Mem.tail _ (List.Mem.head _))) ?_
    have heq : pre ++ (("DELETE").data ++ sep ++ ("FROM").data) ++ post
        = pre ++ (("DELETE").data ++ (sep ++ (("FROM").data ++ post))) := by
      simp [List.append_assoc]
    rw [heq]
    exact searchPat_split _ pre _ false
      (matchKwKw_at _ _ _ _ (by decide) (by decide) hsep hpost) hpre (fun _ => rfl)
  · have hobjfacts : obj ≠ [] ∧ obj.head?.all (fun c => !isWS c) = true :=
      (by decide : ∀ o ∈ ddlObjects, o ≠ [] ∧ o.head?.all (fun c => !isWS c) = true)
        obj hobj
    have hsearch : searchPat (matchKwObjs kw ddlObjects)
        (pre ++ (kw ++ sep ++ obj) ++ post) false = true := by
      have heq : pre ++ (kw ++ sep ++ obj) ++ post
          = pre ++ (kw ++ (sep ++ (obj ++ post))) := by
        simp [List.append_assoc]
      rw [heq]
      exact searchPat_split _ pre _ false
        (matchKwObjs_at _ _ _ _ _ hobj hobjfacts.1 hobjfacts.2 hsep hpost) hpre
        (fun _ => rfl)
    simp only [ddlVerbs, List.mem_cons, List.not_mem_nil, or_false] at hkw
    rcases hkw with rfl | rfl | rfl
    · exact containsForbidden_of_mem
        (List.Mem.tail _ (List.Mem.tail _ (List.Mem.tail _ (List.Mem.head _)))) hsearch
    · exact containsForbidden_of_mem
        (List.Mem.tail _ (List.Mem.tail _ (List.Mem.tail _ (List.Mem.tail _
          (List.Mem.head _))))) hsearch
    · exact containsForbidden_of_mem
        (List.Mem.tail _ (List.Mem.tail _ (List.Mem.tail _ (List.Mem.tail _
          (List.Mem.tail _ (List.Mem.head _)))))) hsearch
  · refine containsForbidden_of_mem
      (List.Mem.tail _ (List.Mem.tail _ (List.Mem.tail _ (List.Mem.tail _
        (List.Mem.tail _ (List.Mem.tail _ (List.Mem.head _))))))) ?_
    have heq : pre ++ (("MERGE").data ++ sep ++ ("INTO").data) ++ post
        = pre ++ (("MERGE").data ++ (sep ++ (("INTO").data ++ post))) := by
      simp [List.append_assoc]
    rw [heq]
    exact searchPat_split _ pre _ false
      (matchKwKw_at _ _ _ _ (by decide) (by decide) hsep hpost) hpre (fun _ => rfl)
  · refine containsForbidden_of_mem
      (List.Mem.tail _ (List.Mem.tail _ (List.Mem.tail _ (List.Mem.tail _
        (List.Mem.tail _ (List.Mem.tail _ (List.Mem.tail _ (List.Mem.head _)))))))) ?_
    have heq : pre ++ (("TRUNCATE").data ++ sep ++ ("TABLE").data) ++ post
        = pre ++ (("TRUNCATE").data ++ (sep ++ (("TABLE").data ++ post))) := by
      simp [List.append_assoc]
    rw [heq]
    exact searchPat_split _ pre _ false
      (matchKwKw_at _ _ _ _ (by decide) (by decide) hsep hpost) hpre (fun _ => rfl)
  · have hsearch : searchPat (matchKwWordKw kw (("ON").data))
        (pre ++ (kw ++ sep1 ++ w ++ sep2 ++ ("ON").data) ++ post) false = true := by
      have heq : pre ++ (kw ++ sep1 ++ w ++ sep2 ++ ("ON").data) ++ post
          = pre ++ (kw ++ (sep1 ++ (w ++ (sep2 ++ (("ON").data ++ post))))) := by
        simp [List.append_assoc]
      rw [heq]
      exact searchPat_split _ pre _ false
        (matchKwWordKw_at _ _ _ _ _ _ (by decide) (by decide) hw hs1 hs2 hpost) hpre
        (fun _ => rfl)
    simp only [grantVerbs, List.mem_cons, List.not_mem_nil, or_false] at hkw
    rcases hkw with rfl | rfl
    · exact containsForbidden_of_mem
        (List.Mem.tail _ (List.Mem.tail _ (List.Mem.tail _ (List.Mem.tail _
          (List.Mem.tail _ (List.Mem.tail _ (List.Mem.tail _ (List.Mem.tail _
            (List.Mem.head _))))))))) hsearch
    · exact containsForbidden_of_mem
        (List.Mem.tail _ (List.Mem.tail _ (List.Mem.tail _ (List.Mem.tail _
          (List.Mem.tail _ (List.Mem.tail _ (List.Mem.tail _ (List.Mem.tail _
            (List.Mem.tail _ (List.Mem.head _)))))))))) hsearch

theorem head?_of_isPrefixOf {a : Char} {kw t : Chars}
    (h : List.isPrefixOf (a :: kw) t = true) : t.head? = some a := by
  cases t with
  | nil => simp [List.isPrefixOf] at h
  | cons b bs =>
      simp only [List.isPrefixOf, Bool.and_eq_true, beq_iff_eq] at h
      simp [List.head?, h.1]

/-- C1: any SQL text whose normalised, uppercased form contains one of the
forbidden mutation phrases — word-boundary anchored, with arbitrary
non-empty whitespace between the tokens — is rejected by `validate_query`.
Stating the occurrence on the uppercased normalisation makes the property
independent of the letter case of the original text (every case variant
has the same uppercased normalisation) and of extra whitespace between
tokens (the separators are arbitrary whitespace runs, and normalisation
additionally collapses them). -/
theorem claim1_forbidden_phrase_rejected (q : Chars)
    (h : SpecForbiddenOccurs (toUpperStr (cleanQuery q))) :
    validate_query q = false := by
  have hc := containsForbidden_of_spec h
  simp [validate_query, hc]

theorem claim1_witness : validate_query (("insert   into t values (1)").data) = false :=
  claim1_forbidden_phrase_rejected _
    ⟨[], ("INSERT").data ++ (" ").data ++ ("INTO").data, (" T VALUES (1)").data,
      Or.inl ⟨(" ").data, by decide, rfl⟩, by decide, by decide, by decide⟩

/-- C2: any SQL text whose normalised, uppercased form starts with one of
the allowed keywords and contains none of the forbidden patterns is
allowed by `validate_query`. -/
theorem claim2_allowed_start_allowed (q : Chars)
    (h1 : ∃ kw ∈ allowed_starts,
      kw.isPrefixOf (pyStrip (toUpperStr (cleanQuery q))) = true)
    (h2 : containsForbidden (toUpperStr (cleanQuery q)) = false) :
    validate_query q = true := by
  obtain ⟨kw, hmem, hpre⟩ := h1
  simp only [validate_query, h2, Bool.false_eq_true, if_false]
  simp only [allowed_starts, List.mem_cons, List.not_mem_nil, or_false] at hmem
  rcases hmem with rfl | rfl | rfl | rfl | rfl | rfl | rfl <;>
  · have hh := head?_of_isPrefixOf hpre
    rw [hh, if_neg (by decide)]
    exact List.any_eq_true.mpr ⟨_, by decide, hpre⟩

theorem claim2_witness : validate_query (("SELECT 1").data) = true :=
  claim2_allowed_start_allowed _ (by decide) (by decide)

/-- C3: when the normalised, uppercased, trimmed text begins with an
opening parenthesis (and contains no forbidden pattern), `validate_query`
strips the leading parentheses and surrounding whitespace as the source's
anchored substitution does and decides by re-checking the allow list
against the remainder.  The witness instantiates this at the
parenthesised-CTE example, which is allowed. -/
theorem claim3_paren_prefix_recheck (q : Chars)
    (h2 : containsForbidden (toUpperStr (cleanQuery q)) = false)
    (hp : (pyStrip (toUpperStr (cleanQuery q))).head? = some '(') :
    validate_query q = true ↔
      allowed_starts.any (fun kw =>
        kw.isPrefixOf (stripLeadParens (pyStrip (toUpperStr (cleanQuery q))))) = true := by
  simp only [validate_query, h2, Bool.false_eq_true, if_false, hp]
  simp

theorem claim3_witness :
    validate_query (("(WITH x AS (SELECT 1) SELECT * FROM x)").data) = true :=
  (claim3_paren_prefix_recheck _ (by decide) (by decide)).mpr (by decide)

/-- C4: forbidden text occurring only inside SQL comments is removed by
normalisation before any pattern matching, for line comments and for
block comments spanning lines, so such queries are allowed. -/
theorem claim4_comments_stripped_allowed :
    cleanQuery (("SELECT 1 -- DROP TABLE x").data) = ("SELECT 1").data
    ∧ validate_query (("SELECT 1 -- DROP TABLE x").data) = true
    ∧ cleanQuery (("SELECT /* DROP\nTABLE x */ 1").data) = ("SELECT 1").data
    ∧ validate_query (("SELECT /* DROP\nTABLE x */ 1").data) = true := by
  decide

/-- C5: a non-blank query rejected by the gate makes `execute_query`
return the fixed policy message naming the allowed keywords, with an empty
effect trace: no connection is attempted and nothing is forwarded to the
engine, whatever the engine, renderer and error formatter are.  (A blank
query short-circuits even earlier with the query-required message.) -/
theorem claim5_policy_reject_no_connection (eng : TrinoEngine)
    (rg : List Chars → List (List Chars) → Chars) (fe : Chars → Chars → Chars)
    (q : Chars) (h1 : (pyStrip q).isEmpty = false) (h2 : validate_query q = false) :
    execute_query eng rg fe q = (readOnlyMsg, []) := by
  simp [execute_query, h1, h2]

theorem claim5_witness :
    execute_query engOk rgW feW (("DROP TABLE foo").data) = (readOnlyMsg, []) :=
  claim5_policy_reject_no_connection engOk rgW feW _ (by decide) (by decide)

/-- C6 counterexample: an allowed statement whose execution fails leaves
the connection open — the trace of `execute_query` records the connection
and the forwarded statement but no close, because the source reaches
`conn.close()` only after a successful `cursor.execute` (there is no
`try/finally`).  This refutes the claim that the connection is closed
unconditionally on every failure path. -/
theorem claim6_counterexample :
    (execute_query engFail rgW feW (("SELECT 1").data)).2
      = [Ev.connect, Ev.execSql (("SELECT 1").data)]
    ∧ Ev.closeConn ∉ (execute_query engFail rgW feW (("SELECT 1").data)).2 := by
  decide

/-- C6 (amended): `execute_query` and `sample_table` open a fresh
connection per call and close cursor and connection before returning on
the success path; when statement execution fails the error message is
returned without closing the connection, and when the connection attempt
itself fails there is nothing to close. -/
theorem claim6_close_only_on_success (eng : TrinoEngine)
    (rg : List Chars → List (List Chars) → Chars) (fe : Chars → Chars → Chars)
    (cfg : TrinoConfig) (q t lim sch cat : Chars) (cur : TrinoCursor) (e : Chars)
    (n : Int) (hq : (pyStrip q).isEmpty = false) (hv : validate_query q = true)
    (ht : (pyStrip t).isEmpty = false) (hl : sampleLimit lim = some n) :
    (eng.connectErr = none → eng.runs q = Except.ok cur →
      (execute_query eng rg fe q).2
        = [Ev.connect, Ev.execSql q, Ev.closeCursor, Ev.closeConn])
    ∧ (eng.connectErr = none → eng.runs q = Except.error e →
      (execute_query eng rg fe q).2 = [Ev.connect, Ev.execSql q])
    ∧ (eng.connectErr = some e → (execute_query eng rg fe q).2 = [Ev.connect])
    ∧ (eng.connectErr = none →
       eng.runs (sampleSqlOf (fullTableOf cfg t sch cat) n) = Except.ok cur →
      (sample_table cfg eng rg fe t lim sch cat).2
        = [Ev.connect, Ev.execSql (sampleSqlOf (fullTableOf cfg t sch cat) n),
           Ev.closeCursor, Ev.closeConn])
    ∧ (eng.connectErr = none →
       eng.runs (sampleSqlOf (fullTableOf cfg t sch cat) n) = Except.error e →
      (sample_table cfg eng rg fe t lim sch cat).2
        = [Ev.connect, Ev.execSql (sampleSqlOf (fullTableOf cfg t sch cat) n)])
    ∧ (eng.connectErr = some e →
      (sample_table cfg eng rg fe t lim sch cat).2 = [Ev.connect]) := by
  refine ⟨?_, ?_, ?_, ?_, ?_, ?_⟩
  · intro hce hr; simp [execute_query, hq, hv, hce, hr]
  · intro hce hr; simp [execute_query, hq, hv, hce, hr]
  · intro hce; simp [execute_query, hq, hv, hce]
  · intro hce hr; simp [sample_table, ht, hl, hce, hr]
  · intro hce hr; simp [sample_table, ht, hl, hce, hr]
  · intro hce; simp [sample_table, ht, hl, hce]

theorem claim6_witness :
    (execute_query engOk rgW feW (("SELECT 1").data)).2
      = [Ev.connect, Ev.execSql (("SELECT 1").data), Ev.closeCursor, Ev.closeConn] :=
  (claim6_close_only_on_success engOk rgW feW cfgW (("SELECT 1").data) (("t").data)
    (("10").data) [] [] curOne [] 10
    (by decide) (by decide) (by decide) (by decide)).1 rfl rfl

/-- C7: for `sample_table` with a non-empty table name, a limit string
parsing above 100 is clamped to exactly 100 (the call behaves identically
to a limit of "100"), a non-numeric limit string yields the invalid-limit
error with an empty effect trace (no connection, no execution), and an
empty or blank limit string defaults to 10 (the call behaves identically
to a limit of "10"). -/
theorem claim7_sample_limit_handling (cfg : TrinoConfig) (eng : TrinoEngine)
    (rg : List Chars → List (List Chars) → Chars) (fe : Chars → Chars → Chars)
    (t sch cat : Chars) (ht : (pyStrip t).isEmpty = false) :
    sample_table cfg eng rg fe t (("500").data) sch cat
      = sample_table cfg eng rg fe t (("100").data) sch cat
    ∧ sample_table cfg eng rg fe t (("abc").data) sch cat
      = (invalidLimitMsg (("abc").data), [])
    ∧ sample_table cfg eng rg fe t (("").data) sch cat
      = sample_table cfg eng rg fe t (("10").data) sch cat
    ∧ sample_table cfg eng rg fe t ((" ").data) sch cat
      = sample_table cfg eng rg fe t (("10").data) sch cat := by
  have e500 : sampleLimit (("500").data) = some 100 := by decide
  have e100 : sampleLimit (("100").data) = some 100 := by decide
  have eabc : sampleLimit (("abc").data) = none := by decide
  have enil : sampleLimit (("").data) = some 10 := by decide
  have esp : sampleLimit ((" ").data) = some 10 := by decide
  have e10 : sampleLimit (("10").data) = some 10 := by decide
  refine ⟨?_, ?_, ?_, ?_⟩ <;> simp [sample_table, ht, e500, e100, eabc, enil, esp, e10]

theorem claim7_witness :
    sample_table cfgW engOk rgW feW (("t").data) (("abc").data) [] []
      = (invalidLimitMsg (("abc").data), []) :=
  (claim7_sample_limit_handling cfgW engOk rgW feW (("t").data) [] [] (by decide)).2.1

/-- C8: the result formatter returns the fixed no-columns message for an
empty column list; the fixed no-results message for non-empty columns
with no fetched rows; and otherwise the rendered grid followed by the
row-count line, with the truncation note naming the limit appended
exactly when the number of fetched rows equals the limit (for strictly
fewer rows, nothing beyond the row-count line is appended). -/
theorem claim8_format_results_cases
    (rg : List Chars → List (List Chars) → Chars) (cur : TrinoCursor) (limit : Int) :
    (cur.description = [] → format_results rg cur limit = ("No columns returned").data)
    ∧ (cur.description ≠ [] → cur.rows.take limit.toNat = [] →
        format_results rg cur limit = ("No results returned").data)
    ∧ (cur.description ≠ [] → cur.rows.take limit.toNat ≠ [] →
        ((cur.rows.take limit.toNat).length : Int) = limit →
        format_results rg cur limit = rg cur.description (cur.rows.take limit.toNat)
          ++ (("\n\nShowing ").data ++ (toString (cur.rows.take limit.toNat).length).data
            ++ (" row(s)").data ++ (" (limited to ").data ++ (toString limit).data
            ++ (" rows)").data))
    ∧ (cur.description ≠ [] → cur.rows.take limit.toNat ≠ [] →
        ((cur.rows.take limit.toNat).length : Int) < limit →
        format_results rg cur limit = rg cur.description (cur.rows.take limit.toNat)
          ++ (("\n\nShowing ").data ++ (toString (cur.rows.take limit.toNat).length).data
            ++ (" row(s)").data)) := by
  refine ⟨?_, ?_, ?_, ?_⟩
  · intro h; simp [format_results, h]
  · intro h1 h2; simp [format_results, List.isEmpty_iff, h1, h2]
  · intro h1 h2 h3
    simp [format_results, List.isEmpty_iff, h1, h2, h3, List.append_assoc]
    simpa using h3
  · intro h1 h2 h3
    simp [format_results, List.isEmpty_iff, h1, h2, Int.ne_of_lt h3, List.append_assoc]
    simpa using Int.ne_of_lt h3

theorem claim8_witness :
    format_results rgW curOne 1 = ("T\n\nShowing 1 row(s) (limited to 1 rows)").data := by
  have h := (claim8_format_results_cases rgW curOne 1).2.2.1 (by decide) (by decide) (by decide)
  exact h.trans (by decide)

/-- C9: the host handed to the engine client is the configured host,
except that a configured host of exactly `localhost` is silently replaced
by `host.docker.internal`. -/
theorem claim9_localhost_rewrite (cfg : TrinoConfig) :
    (cfg.host ≠ ("localhost").data → (get_trino_connection_params cfg).host = cfg.host)
    ∧ (cfg.host = ("localhost").data →
        (get_trino_connection_params cfg).host = ("host.docker.internal").data) := by
  constructor
  · intro h; simp [get_trino_connection_params, h]
  · intro h; simp [get_trino_connection_params, h]

theorem claim9_witness :
    (get_trino_connection_params cfgW).host = ("host.docker.internal").data :=
  (claim9_localhost_rewrite cfgW).2 rfl

/-- C10: `sample_table` clamps the parsed limit only from above: any limit
string parsing to an integer at most 100 — zero and negative values
included — is accepted without an invalid-limit error, and the parsed
value is interpolated verbatim (as its decimal rendering) into the
generated `SELECT * FROM ... LIMIT n` statement that is forwarded to the
engine. -/
theorem claim10_sample_no_lower_bound (cfg : TrinoConfig) (eng : TrinoEngine)
    (rg : List Chars → List (List Chars) → Chars) (fe : Chars → Chars → Chars)
    (t sch cat s : Chars) (n : Int)
    (ht : (pyStrip t).isEmpty = false) (hs : (pyStrip s).isEmpty = false)
    (hp : parseIntPy s = some n) (hn : n ≤ 100) :
    sampleLimit s = some n
    ∧ (eng.connectErr = none → ∃ rest,
        (sample_table cfg eng rg fe t s sch cat).2
          = Ev.connect :: Ev.execSql (sampleSqlOf (fullTableOf cfg t sch cat) n) :: rest) := by
  have h1 : sampleLimit s = some n := by
    have hne : ¬((pyStrip s).isEmpty = true) := by simp [hs]
    simp only [sampleLimit, if_neg hne, hp]
    rw [if_neg (by omega)]
  refine ⟨h1, ?_⟩
  intro hce
  rcases hr : eng.runs (sampleSqlOf (fullTableOf cfg t sch cat) n) with e | cur
  · exact ⟨[], by simp [sample_table, ht, h1, hce, hr]⟩
  · exact ⟨[Ev.closeCursor, Ev.closeConn], by simp [sample_table, ht, h1, hce, hr]⟩

theorem claim10_witness :
    sampleLimit (("-5").data) = some (-5)
    ∧ ∃ rest, (sample_table cfgW engFail rgW feW (("t").data) (("-5").data) [] []).2
        = Ev.connect :: Ev.execSql (sampleSqlOf (fullTableOf cfgW (("t").data) [] []) (-5))
            :: rest := by
  have h := claim10_sample_no_lower_bound cfgW engFail rgW feW (("t").data) [] []
    (("-5").data) (-5) (by decide) (by decide) (by decide) (by decide)
  exact ⟨h.1, h.2 rfl⟩
